import Mathlib

/-!
Shallow embedding of the Pygit core (`libpgit.py`) and verification of the
specification's claims about it.

Byte strings (`bytes` in Python) are modelled as `List Nat` of byte values;
text strings (`str`) that only ever hold ASCII are modelled the same way.
Fallible Python code (exceptions) is modelled with `Except PyErr`.
Unbounded `while True`/recursion in the source is modelled with an explicit
fuel argument; exhausting the fuel corresponds to the Python program not
terminating (or blowing the recursion limit) and is reported as `PyErr.fuelOut`.
-/

deriving instance DecidableEq for Except

namespace Pygit

/-- Byte string literal helper: the ASCII bytes of a Lean string. -/
def bstr (s : String) : List Nat := s.data.map Char.toNat

/-- Python exception kinds raised by the embedded code.  Bare `raise Exception`
sites in the source get a descriptive constructor each. -/
inductive PyErr where
  | assertionError
  | indexError
  | typeError
  | keyError
  | attributeError
  | valueError
  | overflowError
  | badLength
  | unknownType
  | noSuchReference
  | ambiguousReference
  | noSuchObject
  | fuelOut
  deriving DecidableEq, Repr

/-- Whitespace bytes, as recognised by Python's `str.strip` / `int`. -/
def isSpaceByte (b : Nat) : Bool :=
  b == 32 || b == 9 || b == 10 || b == 13 || b == 11 || b == 12

/-- ASCII decimal digit bytes. -/
def isDigitByte (b : Nat) : Bool := 48 ≤ b && b ≤ 57

/-- ASCII hexadecimal digit bytes (both cases). -/
def isHexByte (b : Nat) : Bool :=
  (48 ≤ b && b ≤ 57) || (97 ≤ b && b ≤ 102) || (65 ≤ b && b ≤ 70)

/-- ASCII lowercasing of a byte, modelling `str.lower` on ASCII text. -/
def lowerByte (b : Nat) : Nat := if 65 ≤ b ∧ b ≤ 90 then b + 32 else b

/-- Python `bytes.find(sub, start)` for a single-byte needle: the absolute
index of the first occurrence at or after `start`, or `-1`.  A negative
`start` counts from the end and is clamped at `0`, as in Python. -/
def pyFind (xs : List Nat) (t : Nat) (start : Int) : Int :=
  let s : Nat := (if start < 0 then (xs.length : Int) + start else start).toNat
  match (xs.drop s).findIdx? (fun x => x == t) with
  | none => -1
  | some i => ((s + i : Nat) : Int)

/-- Translate a Python slice endpoint into a `List.take`/`List.drop` count. -/
def pyIdx (len : Nat) (i : Int) : Nat :=
  if i < 0 then ((len : Int) + i).toNat else min i.toNat len

/-- Python slicing `xs[a:b]` with full negative-index semantics. -/
def pySlice (xs : List Nat) (a b : Int) : List Nat :=
  (xs.take (pyIdx xs.length b)).drop (pyIdx xs.length a)

/-- Python indexing `xs[i]`; `none` models an `IndexError`. -/
def pyGet (xs : List Nat) (i : Int) : Option Nat :=
  let j : Int := if i < 0 then i + xs.length else i
  if 0 ≤ j ∧ j < (xs.length : Int) then xs[j.toNat]? else none

/-- Fueled worker for `pyReplace`; one unit of fuel is spent per input byte. -/
def pyReplaceGo : Nat → List Nat → List Nat → List Nat → List Nat
  | 0, xs, _, _ => xs
  | fuel + 1, xs, pat, rep =>
    match xs with
    | [] => []
    | x :: rest =>
      if pat ≠ [] ∧ pat.isPrefixOf xs then
        rep ++ pyReplaceGo fuel (xs.drop pat.length) pat rep
      else
        x :: pyReplaceGo fuel rest pat rep

/-- Python `bytes.replace(pat, rep)`: left-to-right, non-overlapping. -/
def pyReplace (xs pat rep : List Nat) : List Nat := pyReplaceGo xs.length xs pat rep

/-- Decimal value of a digit byte string. -/
def decimalVal (ds : List Nat) : Nat := ds.foldl (fun a b => 10 * a + (b - 48)) 0

/-- Python `int(bytes)`: strip surrounding whitespace, then an optional sign
followed by at least one decimal digit; `none` models a `ValueError`. -/
def pyInt (bs : List Nat) : Option Int :=
  let t := ((bs.dropWhile (fun b => isSpaceByte b)).reverse.dropWhile
      (fun b => isSpaceByte b)).reverse
  let dgs := if t.head? = some 45 ∨ t.head? = some 43 then t.tail else t
  if dgs ≠ [] ∧ dgs.all (fun b => isDigitByte b) then
    some ((if t.head? = some 45 then (-1 : Int) else 1) * (decimalVal dgs : Int))
  else none

/-- Big-endian value of a byte string, modelling `int.from_bytes(_, 'big')`. -/
def beNat (bs : List Nat) : Nat := bs.foldl (fun a b => 256 * a + b) 0

/-- Lowercase hex digit byte for a value below 16. -/
def hexDigit (n : Nat) : Nat := if n < 10 then 48 + n else 87 + n

/-- Fueled worker for `natHex`; the value itself is always enough fuel. -/
def natHexGo : Nat → Nat → List Nat
  | 0, _ => []
  | fuel + 1, n => if n = 0 then [] else natHexGo fuel (n / 16) ++ [hexDigit (n % 16)]

/-- Python `hex(n)[2:]` for `n ≥ 0`: minimal lowercase hex digits, no padding,
and `"0"` for zero. -/
def natHex (n : Nat) : List Nat := if n = 0 then [48] else natHexGo n n

/-- Numeric value of a hex digit byte (either case). -/
def hexDigitVal (b : Nat) : Nat :=
  if 48 ≤ b ∧ b ≤ 57 then b - 48 else if 97 ≤ b then b - 87 else b - 55

/-- Python `int(s, 16)`: at least one hex digit; `none` models a `ValueError`.
(The sign/whitespace/`0x` forms accepted by Python never arise here.) -/
def hexVal (bs : List Nat) : Option Nat :=
  if bs ≠ [] ∧ bs.all (fun b => isHexByte b) then
    some (bs.foldl (fun a b => 16 * a + hexDigitVal b) 0)
  else none

/-- Big-endian digits of `n` in exactly `w` bytes (assuming it fits). -/
def beDigits : Nat → Nat → List Nat
  | 0, _ => []
  | w + 1, n => beDigits w (n / 256) ++ [n % 256]

/-- Python `n.to_bytes(w, 'big')`; `none` models an `OverflowError`. -/
def natToBE (w n : Nat) : Option (List Nat) :=
  if n < 256 ^ w then some (beDigits w n) else none

/-! ## Structured-text codec (kvlm)

The parsed form of `key_value_list_with_message_parse` is an ordered
association list from byte-string keys to Python values.  The source stores a
scalar `bytes` on first sight of a key; on the first repetition it executes
`dct[key] = {dct[key], value}` — a Python *set* literal — and appends when the
stored value is a list (which the parser itself never creates). -/

/-- A value slot of the ordered dictionary built by the kvlm parser. -/
inductive PyVal where
  | scalar (b : List Nat)
  | pylist (vs : List (List Nat))
  | pyset (vs : List (List Nat))
  deriving DecidableEq, Repr

/-- Ordered dictionary, as `collections.OrderedDict`: insertion order kept. -/
def Dct : Type := List (List Nat × PyVal)

instance : DecidableEq Dct := by unfold Dct; infer_instance

instance : Repr Dct := by unfold Dct; infer_instance

/-- Lookup in an ordered dictionary (`key in dct` / `dct[key]`). -/
def dctFind : Dct → List Nat → Option PyVal
  | [], _ => none
  | (k0, v0) :: rest, k => if k0 = k then some v0 else dctFind rest k

/-- Assignment `dct[key] = v`: existing keys keep their position, new keys are
appended, as with `collections.OrderedDict`. -/
def dctSet : Dct → List Nat → PyVal → Dct
  | [], k, v => [(k, v)]
  | (k0, v0) :: rest, k, v =>
    if k0 = k then (k0, v) :: rest else (k0, v0) :: dctSet rest k v

/-- The repeated-key update of `key_value_list_with_message_parse`:
`dct[key].append(value)` for list storage, and the set literal
`{dct[key], value}` on the first repetition (a set deduplicates; a further
repetition would put a set inside a set literal, raising `TypeError` because
sets are unhashable). -/
def dctUpdate (dct : Dct) (key value : List Nat) : Except PyErr Dct :=
  match dctFind dct key with
  | some (PyVal.pylist vs) => .ok (dctSet dct key (PyVal.pylist (vs ++ [value])))
  | some (PyVal.scalar v) =>
      .ok (dctSet dct key (PyVal.pyset (if v = value then [v] else [v, value])))
  | some (PyVal.pyset _) => .error .typeError
  | none => .ok (dctSet dct key (PyVal.scalar value))

/-- The `while True` loop of the parser that finds the end of a value:
starting from `end`, repeatedly `end = raw.find(b'\n', end + 1)` until
`raw[end + 1]` is not a space (continuation marker). -/
def kvlmFindEnd (raw : List Nat) : Nat → Int → Except PyErr Int
  | 0, _ => .error .fuelOut
  | fuel + 1, e =>
    let e2 := pyFind raw 10 (e + 1)
    match pyGet raw (e2 + 1) with
    | none => .error .indexError
    | some c => if c = 32 then kvlmFindEnd raw fuel e2 else .ok e2

/-- Recursive body of `key_value_list_with_message_parse(raw, start, dct)`. -/
def kvlmParseGo (raw : List Nat) : Nat → Int → Dct → Except PyErr Dct
  | 0, _, _ => .error .fuelOut
  | fuel + 1, start, dct =>
    let spc := pyFind raw 32 start
    let nl := pyFind raw 10 start
    if spc = -1 ∨ nl < spc then
      -- base case: blank line, the remainder is the message under key b''
      if nl = start then
        .ok (dctSet dct [] (PyVal.scalar (pySlice raw (start + 1) raw.length)))
      else .error .assertionError
    else
      let key := pySlice raw start spc
      match kvlmFindEnd raw (raw.length + 1) start with
      | .error e => .error e
      | .ok e =>
        let value := pyReplace (pySlice raw (spc + 1) e) (bstr "\n ") (bstr "\n")
        match dctUpdate dct key value with
        | .error er => .error er
        | .ok dct2 => kvlmParseGo raw fuel (e + 1) dct2

/-- Embedding of `key_value_list_with_message_parse` with its default
arguments `start=0`, `dct=None`. -/
def key_value_list_with_message_parse (raw : List Nat) : Except PyErr Dct :=
  kvlmParseGo raw (raw.length + 1) 0 []

/-- The field-emitting loop of `key_value_list_with_message_serialize`.  Note
that the source concatenates `k + b'' + value` — the byte string between key
and value is *empty*.  A set value is first wrapped as `[val]` by the
`type(val) != list` normalisation and then `v.replace` on the set raises
`AttributeError`. -/
def kvlmSerFields : Dct → Except PyErr (List Nat)
  | [] => .ok []
  | (k, v) :: rest =>
    if k = [] then kvlmSerFields rest
    else
      match v with
      | PyVal.scalar b =>
          (kvlmSerFields rest).map
            (fun r => (k ++ bstr "" ++ pyReplace b (bstr "\n") (bstr "\n ") ++ bstr "\n") ++ r)
      | PyVal.pylist vs =>
          (kvlmSerFields rest).map
            (fun r =>
              (vs.foldl
                (fun acc b =>
                  acc ++ (k ++ bstr "" ++ pyReplace b (bstr "\n") (bstr "\n ") ++ bstr "\n"))
                []) ++ r)
      | PyVal.pyset _ => .error .attributeError

/-- Embedding of `key_value_list_with_message_serialize`: emit the fields,
then a blank line and the message stored under `b''` (`KeyError` if absent;
concatenating a non-bytes message would raise `TypeError`). -/
def key_value_list_with_message_serialize (kv : Dct) : Except PyErr (List Nat) :=
  match kvlmSerFields kv with
  | .error e => .error e
  | .ok ret =>
    match dctFind kv [] with
    | some (PyVal.scalar m) => .ok (ret ++ bstr "\n" ++ m)
    | some _ => .error .typeError
    | none => .error .keyError

/-! ## Tree-entry codec -/

/-- Embedding of the `GitTreeLeaf` class: one parsed tree entry. -/
structure GitTreeLeaf where
  mode : List Nat
  path : List Nat
  sha : List Nat
  deriving DecidableEq, Repr

/-- Embedding of `tree_parse_one(raw, start)`: mode up to the first space
(asserted 5 or 6 bytes long), path up to the first NUL, then the SHA-1 taken
from the slice `raw[y+1 : y+21]` — which Python silently truncates at the end
of the buffer — rendered with `hex(int.from_bytes(_, 'big'))[2:]`.  Returns
the next start offset `y + 21` and the leaf. -/
def tree_parse_one (raw : List Nat) (start : Nat) : Except PyErr (Nat × GitTreeLeaf) :=
  let x := pyFind raw 32 start
  if x - (start : Int) = 5 ∨ x - (start : Int) = 6 then
    let mode := pySlice raw start x
    let y := pyFind raw 0 x
    let path := pySlice raw (x + 1) y
    let sha := natHex (beNat (pySlice raw (y + 1) (y + 21)))
    .ok ((y + 21).toNat, ⟨mode, path, sha⟩)
  else .error .assertionError

/-- The `while start < max_len` loop of `tree_parse`.  The source loop has no
own bound; a malformed buffer can make it spin without progress, which the
fuel turns into `PyErr.fuelOut`. -/
def treeParseGo (raw : List Nat) : Nat → Nat → List GitTreeLeaf → Except PyErr (List GitTreeLeaf)
  | 0, _, _ => .error .fuelOut
  | fuel + 1, start, acc =>
    if start < raw.length then
      match tree_parse_one raw start with
      | .error e => .error e
      | .ok (s2, leaf) => treeParseGo raw fuel s2 (acc ++ [leaf])
    else .ok acc

/-- Embedding of `tree_parse(raw)`. -/
def tree_parse (raw : List Nat) : Except PyErr (List GitTreeLeaf) :=
  treeParseGo raw (raw.length + 1) 0 []

/-- Embedding of `tree_serialize`: for each leaf emit
`mode + b' ' + path + b'\x00'` followed by `int(leaf.sha, 16).to_bytes(20,
'big')`; a non-hex sha raises `ValueError` and an over-wide value raises
`OverflowError`. -/
def tree_serialize : List GitTreeLeaf → Except PyErr (List Nat)
  | [] => .ok []
  | leaf :: rest =>
    match hexVal leaf.sha with
    | none => .error .valueError
    | some n =>
      match natToBE 20 n with
      | none => .error .overflowError
      | some shaBytes =>
          (tree_serialize rest).map
            (fun r => (leaf.mode ++ 32 :: leaf.path ++ 0 :: shaBytes) ++ r)

/-! ## Stored objects, framing, and the object store -/

/-- The closed variant of stored objects: the payload each `GitObject`
subclass keeps after `deserialize` (`GitBlob.blobdata`, `GitTree.items`, the
kvlm dictionary of `GitCommit` and `GitTag`). -/
inductive GitObj where
  | blob (blobdata : List Nat)
  | tree (items : List GitTreeLeaf)
  | commit (kvlm : Dct)
  | tag (kvlm : Dct)
  deriving DecidableEq, Repr

/-- The class attribute `fmt` of each `GitObject` subclass, as a byte string. -/
def GitObj.fmtTag : GitObj → List Nat
  | .blob _ => bstr "blob"
  | .tree _ => bstr "tree"
  | .commit _ => bstr "commit"
  | .tag _ => bstr "tag"

/-- The kvlm attribute, present only on commit-like objects; `none` models the
`AttributeError` of touching `key_value_list_with_message` on a blob or tree. -/
def GitObj.kvlmField : GitObj → Option Dct
  | .commit d => some d
  | .tag d => some d
  | _ => none

/-- The `serialize` method of each subclass. -/
def objSerialize : GitObj → Except PyErr (List Nat)
  | .blob d => .ok d
  | .tree items => tree_serialize items
  | .commit kv => key_value_list_with_message_serialize kv
  | .tag kv => key_value_list_with_message_serialize kv

/-- The constructor-dispatch tail of `object_read`: pick the subclass for the
format tag and run its `deserialize` on the payload. -/
def objectDispatch (fmt payload : List Nat) : Except PyErr GitObj :=
  if fmt = bstr "commit" then (key_value_list_with_message_parse payload).map GitObj.commit
  else if fmt = bstr "tree" then (tree_parse payload).map GitObj.tree
  else if fmt = bstr "tag" then (key_value_list_with_message_parse payload).map GitObj.tag
  else if fmt = bstr "blob" then .ok (GitObj.blob payload)
  else .error .unknownType

/-- Embedding of `object_read` applied to the already-decompressed file bytes
(`zlib` is an external collaborator): split the envelope at the first space
and the first NUL after it, check the declared length against the remaining
byte count (`raise` modelled as `PyErr.badLength`), then dispatch. -/
def object_read (raw : List Nat) : Except PyErr GitObj :=
  let x := pyFind raw 32 0
  let fmt := pySlice raw 0 x
  let y := pyFind raw 0 x
  match pyInt (pySlice raw x y) with
  | none => .error .valueError
  | some size =>
    if size ≠ (raw.length : Int) - y - 1 then .error .badLength
    else objectDispatch fmt (pySlice raw (y + 1) raw.length)

/-- Observable object-store state touched by `object_write`: the set of shard
directories that exist and the contents of object files, keyed by the path
`objects/xx/yyyy…` relative to the git directory. -/
@[ext]
structure Store where
  dirs : List (List Nat)
  files : List Nat → Option (List Nat)

/-- Directory creation (`os.makedirs` via `repo_file(..., mkdir=True)`):
creating an existing directory changes nothing. -/
def insertDir (ds : List (List Nat)) (d : List Nat) : List (List Nat) :=
  if d ∈ ds then ds else ds ++ [d]

/-- Embedding of `object_write(obj, actually_write)`.  The SHA-1 of `hashlib`
and the deflate of `zlib` are external collaborators, passed in as function
parameters `digest` and `compress`; the claims hold for every choice.  The
framed bytes are `fmt + b' ' + str(len(data)).encode() + b'\x00' + data`. -/
def object_write (digest compress : List Nat → List Nat) (obj : GitObj)
    (actually_write : Bool) (st : Store) : Except PyErr (List Nat × Store) :=
  match objSerialize obj with
  | .error e => .error e
  | .ok data =>
    let result := obj.fmtTag ++ 32 :: bstr (toString data.length) ++ 0 :: data
    let sha := digest result
    if actually_write then
      let dir := bstr "objects/" ++ sha.take 2
      let path := dir ++ 47 :: sha.drop 2
      .ok (sha,
        { dirs := insertDir st.dirs dir,
          files := fun p => if p = path then some (compress result) else st.files p })
    else .ok (sha, st)

/-! ## Reference store -/

/-- Embedding of `ref_resolve(repo, ref)` over an abstract text filesystem
`fs` mapping a reference path to its file contents (`none` models the
`IOError` of a missing file).  The source recursion has no depth bound; the
fuel argument makes it total, with `PyErr.fuelOut` standing for divergence on
a cyclic reference chain. -/
def ref_resolve (fs : List Nat → Option (List Nat)) : Nat → List Nat → Except PyErr (List Nat)
  | 0, _ => .error .fuelOut
  | fuel + 1, ref =>
    match fs ref with
    | none => .error .noSuchReference
    | some content =>
      let data := content.dropLast
      if (bstr "ref: ").isPrefixOf data then ref_resolve fs fuel (data.drop 5)
      else .ok data

/-- The chain of symbolic indirections below a reference: `RefChain fs r d n`
says that starting at path `r`, exactly `n` `ref: ` indirections lead to a
direct reference whose stripped contents are `d`.  The side conditions are
literally the tests `ref_resolve` performs. -/
inductive RefChain (fs : List Nat → Option (List Nat)) : List Nat → List Nat → Nat → Prop where
  | direct (r s : List Nat) : fs r = some s →
      (bstr "ref: ").isPrefixOf s.dropLast = false → RefChain fs r s.dropLast 0
  | step (r s d : List Nat) (n : Nat) : fs r = some s →
      (bstr "ref: ").isPrefixOf s.dropLast = true →
      RefChain fs (s.dropLast.drop 5) d n → RefChain fs r d (n + 1)

/-! ## Name resolution -/

/-- Embedding of `object_resolve(repo, name)`.  The object-store directory
listing is abstracted as `shard`, mapping a two-character shard name to the
file names inside `objects/<shard>/` (in `os.listdir` order), and the
`ref_resolve(repo, "HEAD")` call in the HEAD branch is abstracted as `head`.
The result `none` is Python's `None`; a list is the candidate list. -/
def object_resolve (shard : List Nat → Option (List (List Nat)))
    (head : Except PyErr (List Nat)) (name : List Nat) :
    Except PyErr (Option (List (List Nat))) :=
  if name.all (fun b => isSpaceByte b) then .ok none
  else if name = bstr "HEAD" then head.map (fun h => some [h])
  else if (4 ≤ name.length ∧ name.length ≤ 40 ∧ name.all (fun b => isHexByte b))
      ∧ name.length = 40 then
    .ok (some [name.map lowerByte])
  else
    let nm := name.map lowerByte
    let pfx := nm.take 2
    match shard pfx with
    | none => .ok (some [])
    | some files =>
        .ok (some ((files.filter (fun f => (nm.drop 2).isPrefixOf f)).map
          (fun f => pfx ++ f)))

/-- The `while True` dereferencing loop of `object_find`, with `object_read`
abstracted as `readObj` (`none` models any exception it raises).  The source
returns `None` when the object's format is neither the required one nor
`tag`; the `elif obj.fmt == b"commit"` arm below is therefore unreachable,
exactly as in the source. -/
def objectFindLoop (readObj : List Nat → Option GitObj) (fmt : List Nat)
    (follow : Bool) : Nat → List Nat → Except PyErr (Option (List Nat))
  | 0, _ => .error .fuelOut
  | fuel + 1, sha =>
    match readObj sha with
    | none => .error .noSuchObject
    | some obj =>
      if obj.fmtTag = fmt then .ok (some sha)
      else if obj.fmtTag ≠ bstr "tag" then .ok none
      else if follow = false then .ok (some sha)
      else if obj.fmtTag = bstr "tag" then
        match obj.kvlmField with
        | none => .error .attributeError
        | some d =>
          match dctFind d (bstr "object") with
          | some (PyVal.scalar v) => objectFindLoop readObj fmt follow fuel v
          | some _ => .error .attributeError
          | none => .error .keyError
      else if obj.fmtTag = bstr "commit" ∧ fmt = bstr "tree" then
        match obj.kvlmField with
        | none => .error .attributeError
        | some d =>
          match dctFind d (bstr "tree") with
          | some (PyVal.scalar v) => objectFindLoop readObj fmt follow fuel v
          | some _ => .error .attributeError
          | none => .error .keyError
      else .ok none

/-- Embedding of `object_find(repo, name, fmt, follow)`: resolve the name,
fail on zero (`None` or empty list) or several candidates, return the single
candidate unchanged when no format is required, and otherwise run the
dereferencing loop. -/
def object_find (shard : List Nat → Option (List (List Nat)))
    (head : Except PyErr (List Nat)) (readObj : List Nat → Option GitObj)
    (fuel : Nat) (name : List Nat) (fmt : Option (List Nat)) (follow : Bool) :
    Except PyErr (Option (List Nat)) :=
  match object_resolve shard head name with
  | .error e => .error e
  | .ok none => .error .noSuchReference
  | .ok (some []) => .error .noSuchReference
  | .ok (some (s :: rest)) =>
    if rest.length > 0 then .error .ambiguousReference
    else
      match fmt with
      | none => .ok (some s)
      | some f => objectFindLoop readObj f follow fuel s

/-! ## Concrete stores and buffers used as test fixtures -/

/-- A 40-hex tag ObjectId (forty times the letter a). -/
def tagSha : List Nat := List.replicate 40 97

/-- A 40-hex commit ObjectId (forty times the letter b). -/
def commitSha : List Nat := List.replicate 40 98

/-- A 40-hex tree ObjectId (forty times the letter c). -/
def treeSha : List Nat := List.replicate 40 99

/-- A store holding a Tag whose `object` field names a Commit whose `tree`
field names a Tree: the dereference chain of the specification's
tag-to-commit-to-tree scenario. -/
def readObjChain : List Nat → Option GitObj := fun s =>
  if s = tagSha then some (.tag [(bstr "object", PyVal.scalar commitSha)])
  else if s = commitSha then some (.commit [(bstr "tree", PyVal.scalar treeSha)])
  else if s = treeSha then some (.tree [])
  else none

/-- An object store whose shard directory `ab` holds one object file whose
name starts with `c`. -/
def shardAB : List Nat → Option (List (List Nat)) := fun p =>
  if p = bstr "ab" then some [bstr "c" ++ List.replicate 37 48] else none

/-- A tree payload whose single entry is cut short: only five bytes follow
the NUL terminator where a 20-byte digest is required. -/
def truncatedTreeBuf : List Nat := bstr "10644 a" ++ 0 :: [1, 2, 3, 4, 5]

/-- A reference filesystem where `HEAD` is a symbolic reference to
`refs/heads/master`, which is a direct reference holding a 40-hex digest. -/
def refFs : List Nat → Option (List Nat) := fun p =>
  if p = bstr "HEAD" then some (bstr "ref: refs/heads/master\n")
  else if p = bstr "refs/heads/master" then
    some (bstr "2f7f3dbb69ff2cb6b86d0783bcbbbd7245f16e9d\n")
  else none

/-! ## Helper lemmas about the Python primitive models -/

theorem findIdx_mark (a b : List Nat) (t : Nat) (h : t ∉ a) :
    (a ++ t :: b).findIdx? (fun x => x == t) = some a.length := by
  induction a with
  | nil => simp
  | cons x xs ih =>
    have hx : (x == t) = false := by
      simp only [beq_eq_false_iff_ne, ne_eq]
      intro e
      exact h (by simp [e])
    have hxs : t ∉ xs := fun m => h (List.mem_cons_of_mem _ m)
    simp [hx, List.findIdx?_succ, ih hxs]

theorem pyFind_split (raw : List Nat) (s : Nat) (a b : List Nat) (t : Nat)
    (hdrop : raw.drop s = a ++ t :: b) (h : t ∉ a) :
    pyFind raw t (s : Int) = ((s + a.length : Nat) : Int) := by
  unfold pyFind
  have h0 : ¬ ((s : Int) < 0) := by omega
  simp only [if_neg h0, Int.toNat_natCast, hdrop, findIdx_mark a b t h]

theorem take_app (a b : List Nat) (n : Nat) :
    (a ++ b).take (a.length + n) = a ++ b.take n := by
  induction a with
  | nil => simp
  | cons x xs ih => simp [Nat.succ_add, ih]

theorem drop_app (a b : List Nat) (n : Nat) :
    (a ++ b).drop (a.length + n) = b.drop n := by
  induction a with
  | nil => simp
  | cons x xs ih => simp [Nat.succ_add, ih]

theorem pySlice_nat (xs : List Nat) (a b : Nat) :
    pySlice xs (a : Int) (b : Int) = (xs.take b).drop a := by
  unfold pySlice pyIdx
  have ha : ¬ ((a : Int) < 0) := by omega
  have hb : ¬ ((b : Int) < 0) := by omega
  simp only [if_neg ha, if_neg hb, Int.toNat_natCast]
  have htake : xs.take (min b xs.length) = xs.take b := by
    rcases Nat.le_total b xs.length with hle | hle
    · rw [Nat.min_eq_left hle]
    · rw [Nat.min_eq_right hle, List.take_length, List.take_of_length_le hle]
  rw [htake]
  rcases Nat.le_total a xs.length with hle | hle
  · rw [Nat.min_eq_left hle]
  · rw [Nat.min_eq_right hle]
    have h1 : (xs.take b).length ≤ xs.length := by
      simp
    rw [List.drop_of_length_le h1, List.drop_of_length_le (Nat.le_trans h1 hle)]

theorem treeParseGo_done (raw : List Nat) (fuel start : Nat) (acc : List GitTreeLeaf)
    (hf : fuel ≠ 0) (hs : ¬ start < raw.length) :
    treeParseGo raw fuel start acc = .ok acc := by
  cases fuel with
  | zero => exact absurd rfl hf
  | succ n => simp [treeParseGo, hs]

theorem tree_parse_one_truncated (mode path digest : List Nat)
    (hm : mode.length = 5 ∨ mode.length = 6) (hms : (32 : Nat) ∉ mode)
    (hp : (0 : Nat) ∉ path) (hd : digest.length < 20) :
    tree_parse_one (mode ++ 32 :: (path ++ 0 :: digest)) 0
      = .ok (mode.length + path.length + 22, ⟨mode, path, natHex (beNat digest)⟩) := by
  have hx := pyFind_split (mode ++ 32 :: (path ++ 0 :: digest)) 0 mode (path ++ 0 :: digest)
    32 (by rw [List.drop_zero]) hms
  have hdropm : (mode ++ 32 :: (path ++ 0 :: digest)).drop mode.length
      = (32 :: path) ++ 0 :: digest := List.drop_left mode (32 :: (path ++ 0 :: digest))
  have hy := pyFind_split (mode ++ 32 :: (path ++ 0 :: digest)) mode.length (32 :: path) digest
    0 hdropm (by simp [hp])
  simp only [tree_parse_one, hx, Nat.zero_add, hy]
  have hc : ((mode.length : Int) - ((0 : Nat) : Int) = 5 ∨
      (mode.length : Int) - ((0 : Nat) : Int) = 6) := by omega
  rw [if_pos hc]
  have hA : ((((mode.length + (32 :: path).length : Nat)) : Int) + 21).toNat
      = mode.length + path.length + 22 := by
    simp only [List.length_cons]
    omega
  have hmode2 : pySlice (mode ++ 32 :: (path ++ 0 :: digest))
      (((0 : Nat)) : Int) ((mode.length : Nat) : Int) = mode := by
    rw [pySlice_nat]
    simp [List.take_left]
  have hpath2 : pySlice (mode ++ 32 :: (path ++ 0 :: digest))
      ((mode.length : Int) + 1) (((mode.length + (32 :: path).length : Nat)) : Int)
      = path := by
    have e1 : ((mode.length : Int) + 1) = ((mode.length + 1 : Nat) : Int) := by push_cast; ring
    rw [e1, pySlice_nat, take_app]
    simp only [List.length_cons, List.take_succ_cons, List.take_left]
    rw [drop_app]
    simp
  have hsha2 : pySlice (mode ++ 32 :: (path ++ 0 :: digest))
      ((((mode.length + (32 :: path).length : Nat)) : Int) + 1)
      ((((mode.length + (32 :: path).length : Nat)) : Int) + 21) = digest := by
    have e1 : ((((mode.length + (32 :: path).length : Nat)) : Int) + 1)
        = ((mode.length + path.length + 2 : Nat) : Int) := by
      simp only [List.length_cons]
      push_cast
      ring
    have e2 : ((((mode.length + (32 :: path).length : Nat)) : Int) + 21)
        = ((mode.length + path.length + 22 : Nat) : Int) := by
      simp only [List.length_cons]
      push_cast
      ring
    rw [e1, e2, pySlice_nat]
    have hlen : (mode ++ 32 :: (path ++ 0 :: digest)).length
        = mode.length + path.length + 2 + digest.length := by
      simp only [List.length_append, List.length_cons]
      omega
    rw [List.take_of_length_le (by rw [hlen]; omega)]
    have hassoc : mode ++ 32 :: (path ++ 0 :: digest)
        = (mode ++ 32 :: (path ++ [0])) ++ digest := by simp
    have e3 : mode.length + path.length + 2 = (mode ++ 32 :: (path ++ [0])).length + 0 := by
      simp only [List.length_append, List.length_cons, List.length_nil]
      omega
    rw [hassoc, e3, drop_app]
    simp
  rw [hA, hmode2, hpath2, hsha2]

theorem tree_parse_truncated (mode path digest : List Nat)
    (hm : mode.length = 5 ∨ mode.length = 6) (hms : (32 : Nat) ∉ mode)
    (hp : (0 : Nat) ∉ path) (hd : digest.length < 20) :
    tree_parse (mode ++ 32 :: (path ++ 0 :: digest))
      = .ok [⟨mode, path, natHex (beNat digest)⟩] := by
  have hlen : (mode ++ 32 :: (path ++ 0 :: digest)).length
      = mode.length + path.length + 2 + digest.length := by
    simp only [List.length_append, List.length_cons]
    omega
  unfold tree_parse
  rw [hlen]
  simp only [treeParseGo]
  rw [if_pos (by omega), tree_parse_one_truncated mode path digest hm hms hp hd]
  exact treeParseGo_done _ _ _ _ (by omega) (by rw [hlen]; omega)

theorem dropWhile_space_digits (l : List Nat) (hl : ∀ b ∈ l, 48 ≤ b ∧ b ≤ 57) :
    l.dropWhile (fun b => isSpaceByte b) = l := by
  cases l with
  | nil => rfl
  | cons x xs =>
    have hx := hl x (by simp)
    have hxs : isSpaceByte x = false := by
      simp only [isSpaceByte, Bool.or_eq_false_iff, beq_eq_false_iff_ne, ne_eq]
      omega
    simp [List.dropWhile_cons, hxs]

theorem pyInt_space_digits (ds : List Nat) (hne : ds ≠ [])
    (hds : ∀ b ∈ ds, 48 ≤ b ∧ b ≤ 57) :
    pyInt (32 :: ds) = some ((decimalVal ds : Nat) : Int) := by
  obtain ⟨d, tl, rfl⟩ : ∃ d tl, ds = d :: tl := by
    cases ds with
    | nil => exact absurd rfl hne
    | cons d tl => exact ⟨d, tl, rfl⟩
  have hd := hds d (by simp)
  have hrev : ∀ b ∈ (d :: tl).reverse, 48 ≤ b ∧ b ≤ 57 := by
    intro b hb
    exact hds b (List.mem_reverse.mp hb)
  have h1 : (32 :: d :: tl).dropWhile (fun b => isSpaceByte b) = d :: tl := by
    have h32 : isSpaceByte 32 = true := by decide
    simp [List.dropWhile_cons, h32, dropWhile_space_digits _ hds]
  have h2 : (d :: tl).reverse.dropWhile (fun b => isSpaceByte b) = (d :: tl).reverse :=
    dropWhile_space_digits _ hrev
  have hall : (d :: tl).all (fun b => isDigitByte b) = true := by
    rw [List.all_eq_true]
    intro b hb
    have hbb := hds b hb
    simp only [isDigitByte, Bool.and_eq_true, decide_eq_true_eq]
    omega
  have hh45 : ¬ ((d :: tl).head? = some 45 ∨ (d :: tl).head? = some 43) := by
    simp only [List.head?_cons, Option.some.injEq, not_or]
    omega
  have hh45' : ¬ ((d :: tl).head? = some 45) := by
    simp only [List.head?_cons, Option.some.injEq]
    omega
  simp only [pyInt, h1, h2, List.reverse_reverse]
  rw [if_neg hh45]
  rw [if_pos ⟨List.cons_ne_nil d tl, hall⟩]
  rw [if_neg hh45']
  rw [one_mul]

theorem object_read_envelope (fmt ds payload : List Nat)
    (hfmt : (32 : Nat) ∉ fmt) (hne : ds ≠ [])
    (hds : ∀ b ∈ ds, 48 ≤ b ∧ b ≤ 57) :
    (decimalVal ds ≠ payload.length →
        object_read (fmt ++ 32 :: (ds ++ 0 :: payload)) = .error .badLength)
    ∧ (decimalVal ds = payload.length →
        object_read (fmt ++ 32 :: (ds ++ 0 :: payload)) = objectDispatch fmt payload) := by
  have hx := pyFind_split (fmt ++ 32 :: (ds ++ 0 :: payload)) 0 fmt (ds ++ 0 :: payload)
    32 (by rw [List.drop_zero]) hfmt
  rw [Nat.cast_zero] at hx
  have hdropf : (fmt ++ 32 :: (ds ++ 0 :: payload)).drop fmt.length
      = (32 :: ds) ++ 0 :: payload := List.drop_left fmt (32 :: (ds ++ 0 :: payload))
  have h0nds : (0 : Nat) ∉ (32 :: ds) := by
    intro h
    rcases List.mem_cons.mp h with h32 | hmem
    · omega
    · have := hds 0 hmem
      omega
  have hy := pyFind_split (fmt ++ 32 :: (ds ++ 0 :: payload)) fmt.length (32 :: ds) payload
    0 hdropf h0nds
  have hsize_slice : pySlice (fmt ++ 32 :: (ds ++ 0 :: payload))
      ((fmt.length : Nat) : Int) (((fmt.length + (32 :: ds).length : Nat)) : Int)
      = 32 :: ds := by
    rw [pySlice_nat, take_app]
    simp only [List.length_cons, List.take_succ_cons, List.take_left]
    exact List.drop_left fmt (32 :: ds)
  have hfmt_slice : pySlice (fmt ++ 32 :: (ds ++ 0 :: payload))
      (0 : Int) ((fmt.length : Nat) : Int) = fmt := by
    have h := pySlice_nat (fmt ++ 32 :: (ds ++ 0 :: payload)) 0 fmt.length
    rw [Nat.cast_zero] at h
    rw [h, List.drop_zero, List.take_left]
  have hpayload_slice : pySlice (fmt ++ 32 :: (ds ++ 0 :: payload))
      ((((fmt.length + (32 :: ds).length : Nat)) : Int) + 1)
      (((fmt ++ 32 :: (ds ++ 0 :: payload)).length : Nat) : Int) = payload := by
    have e1 : ((((fmt.length + (32 :: ds).length : Nat)) : Int) + 1)
        = ((fmt.length + ds.length + 2 : Nat) : Int) := by
      simp only [List.length_cons]
      push_cast
      ring
    rw [e1, pySlice_nat, List.take_length]
    have hassoc : fmt ++ 32 :: (ds ++ 0 :: payload)
        = (fmt ++ 32 :: (ds ++ [0])) ++ payload := by simp
    have e3 : fmt.length + ds.length + 2 = (fmt ++ 32 :: (ds ++ [0])).length + 0 := by
      simp only [List.length_append, List.length_cons, List.length_nil]
      omega
    rw [hassoc, e3, drop_app]
    simp
  have hcore : object_read (fmt ++ 32 :: (ds ++ 0 :: payload))
      = if ((decimalVal ds : Nat) : Int) ≠ ((payload.length : Nat) : Int)
        then .error .badLength else objectDispatch fmt payload := by
    simp only [object_read, hx, Nat.zero_add, hy, hsize_slice,
      pyInt_space_digits ds hne hds, hfmt_slice, hpayload_slice]
    have e : (((fmt ++ 32 :: (ds ++ 0 :: payload)).length : Nat) : Int)
        - (((fmt.length + (32 :: ds).length : Nat)) : Int) - 1
        = ((payload.length : Nat) : Int) := by
      simp only [List.length_append, List.length_cons]
      push_cast
      ring
    rw [e]
  constructor
  · intro h
    rw [hcore, if_pos (by exact_mod_cast h)]
  · intro h
    rw [hcore, if_neg (by simp [h])]

theorem insertDir_idem (ds : List (List Nat)) (d : List Nat) :
    insertDir (insertDir ds d) d = insertDir ds d := by
  by_cases h : d ∈ ds
  · simp [insertDir, h]
  · simp [insertDir, h]

theorem object_write_idem_helper (digest compress : List Nat → List Nat) (obj : GitObj)
    (st : Store) :
    (object_write digest compress obj true st).bind
        (fun r => object_write digest compress obj true r.2)
      = object_write digest compress obj true st := by
  cases h : objSerialize obj with
  | error e => simp [object_write, h, Except.bind]
  | ok data =>
    simp only [object_write, h, Except.bind, if_true]
    refine congrArg Except.ok (congrArg _ ?_)
    refine Store.ext (insertDir_idem _ _) ?_
    funext p
    dsimp only
    split_ifs <;> rfl

theorem object_write_dry_helper (digest compress : List Nat → List Nat) (obj : GitObj)
    (st : Store) :
    object_write digest compress obj false st
      = (object_write digest compress obj true st).map (fun r => (r.1, st)) := by
  cases h : objSerialize obj with
  | error e => simp [object_write, h, Except.map]
  | ok data => simp [object_write, h, Except.map]

theorem ref_resolve_chain (fs : List Nat → Option (List Nat)) (r d : List Nat) (n : Nat)
    (h : RefChain fs r d n) : ∀ fuel : Nat, n < fuel → ref_resolve fs fuel r = .ok d := by
  induction h with
  | direct r s hfs hpref =>
    intro fuel hf
    cases fuel with
    | zero => omega
    | succ k => simp [ref_resolve, hfs, hpref]
  | step r s d n hfs hpref hchain ih =>
    intro fuel hf
    cases fuel with
    | zero => omega
    | succ k =>
      simp only [ref_resolve, hfs]
      rw [if_pos hpref]
      exact ih k (by omega)

/-! ## Claims -/

/-- Claim C1.  The spec's round-trip law `serialize(parse(x)) == x` fails on
the code: for the well-formed input `key line1\n line2\n\nmessage body\n`,
parsing does produce value `line1\nline2` under key `key` and message
`message body\n`, but re-serializing yields
`keyline1\n line2\n\nmessage body\n` — the space between key and value is
lost, because the serializer concatenates `k + b'' + value` with an empty
byte string where the original format requires `b' '`.  The round trip is
therefore not the identity on this well-formed input. -/
theorem kvlm_roundtrip_drops_key_separator :
    key_value_list_with_message_parse (bstr "key line1\n line2\n\nmessage body\n")
      = .ok [(bstr "key", PyVal.scalar (bstr "line1\nline2")),
             ([], PyVal.scalar (bstr "message body\n"))]
    ∧ (key_value_list_with_message_parse (bstr "key line1\n line2\n\nmessage body\n")).bind
        key_value_list_with_message_serialize
      = .ok (bstr "keyline1\n line2\n\nmessage body\n")
    ∧ bstr "keyline1\n line2\n\nmessage body\n"
      ≠ bstr "key line1\n line2\n\nmessage body\n" := by
  refine ⟨by decide, by decide, by decide⟩

/-- Claim C2.  On a store with a Tag → Commit → Tree chain (`readObjChain`),
`object_find` with required kind `tree` does *not* return the Tree's
ObjectId: the guard `if obj.fmt != b"tag": return None` returns `None` as
soon as the chain reaches the Commit, so the commit-to-tree dereference arm
is dead code.  Both the required-kind-`tree` and the required-kind-`blob`
lookups evaluate to Python `None` (`.ok none`), where the claim expects the
tree lookup to produce `treeSha`. -/
theorem object_find_never_dereferences_commit :
    object_find (fun _ => none) (.error .noSuchReference) readObjChain 4 tagSha
      (some (bstr "tree")) true = .ok none
    ∧ object_find (fun _ => none) (.error .noSuchReference) readObjChain 4 tagSha
      (some (bstr "blob")) true = .ok none
    ∧ (.ok none : Except PyErr (Option (List Nat))) ≠ .ok (some treeSha) := by
  refine ⟨by decide, by decide, by decide⟩

/-- Claim C3.  `tree_parse_one` renders the 20-byte digest with
`hex(int.from_bytes(...))[2:]`, which drops leading zeros: a digest whose
first byte is zero (here `00 ff…ff`) is rendered as 38 hex characters, not
the 40 the claim requires. -/
theorem tree_parse_one_drops_leading_zeros :
    tree_parse (bstr "10644 f" ++ 0 :: 0 :: List.replicate 19 255)
      = .ok [⟨bstr "10644", bstr "f", List.replicate 38 102⟩]
    ∧ (List.replicate 38 102).length ≠ 40 := by
  refine ⟨by decide, by decide⟩

/-- Claim C4.  `object_resolve` runs the shard scan for *any* name that is
not all-whitespace, not `HEAD` and not a full 40-character hex digest; the
`{4,40}` hex pattern is only consulted for the full-hash case.  The
3-character hex name `abc` therefore produces a candidate from the shard
directory `ab`, where the claim says the scan must yield none. -/
theorem object_resolve_scans_three_char_name :
    object_resolve shardAB (.error .noSuchReference) (bstr "abc")
      = .ok (some [bstr "abc" ++ List.replicate 37 48])
    ∧ [bstr "abc" ++ List.replicate 37 48] ≠ ([] : List (List Nat)) := by
  refine ⟨by decide, by decide⟩

/-- Claim C5.  On the first repetition of a key the parser executes
`dct[key] = {dct[key], value}` — a Python *set* literal, not a list — so the
repeated key `k` of `k v1\nk v2\n\nmsg\n` is stored as the set
`{v1, v2}`; re-serializing such storage raises `AttributeError` because the
normalisation wraps the set in a one-element list and then calls `.replace`
on the set. -/
theorem kvlm_repeated_key_promotes_to_set :
    key_value_list_with_message_parse (bstr "k v1\nk v2\n\nmsg\n")
      = .ok [(bstr "k", PyVal.pyset [bstr "v1", bstr "v2"]),
             ([], PyVal.scalar (bstr "msg\n"))]
    ∧ (key_value_list_with_message_parse (bstr "k v1\nk v2\n\nmsg\n")).bind
        key_value_list_with_message_serialize
      = .error .attributeError := by
  refine ⟨by decide, by decide⟩

/-- Claim C6, counterexample.  A tree payload whose single entry has only
five bytes after the NUL terminator is parsed *successfully* — Python's
slice `raw[y+1 : y+21]` silently clamps at the end of the buffer — so
`tree_parse` does not fail with a FormatError as the claim states. -/
theorem tree_parse_truncated_no_error :
    tree_parse truncatedTreeBuf = .ok [⟨bstr "10644", bstr "a", bstr "102030405"⟩]
    ∧ ¬ ∃ e : PyErr, tree_parse truncatedTreeBuf = .error e := by
  have h : tree_parse truncatedTreeBuf
      = .ok [⟨bstr "10644", bstr "a", bstr "102030405"⟩] := by decide
  refine ⟨h, ?_⟩
  rintro ⟨e, he⟩
  rw [h] at he
  exact Except.noConfusion he

/-- Claim C6, amended.  For every tree payload consisting of a single entry
whose digest field runs past the end of the buffer (fewer than 20 bytes
after the NUL terminator), `tree_parse` succeeds and returns that entry,
with the sha decoded big-endian from the remaining bytes, instead of
failing with a FormatError. -/
theorem tree_parse_truncated_entry_returned (mode path digest : List Nat)
    (hm : mode.length = 5 ∨ mode.length = 6) (hms : (32 : Nat) ∉ mode)
    (hp : (0 : Nat) ∉ path) (hd : digest.length < 20) :
    tree_parse (mode ++ 32 :: (path ++ 0 :: digest))
      = .ok [⟨mode, path, natHex (beNat digest)⟩] :=
  tree_parse_truncated mode path digest hm hms hp hd

/-- Claim C6, witness for the amended theorem at a concrete truncated
entry with a two-byte digest field. -/
theorem tree_parse_truncated_entry_returned_witness :
    tree_parse (bstr "10644" ++ 32 :: (bstr "a" ++ 0 :: [9, 9]))
      = .ok [⟨bstr "10644", bstr "a", natHex (beNat [9, 9])⟩] :=
  tree_parse_truncated_entry_returned (bstr "10644") (bstr "a") [9, 9]
    (by decide) (by decide) (by decide) (by decide)

/-- Claim C7.  For every stored envelope `fmt ++ b' ' ++ digits ++ b'\x00'
++ payload`, `object_read` fails with the bad-length FormatError whenever
the declared decimal length differs from the payload length, and when it
matches the read reduces to `objectDispatch`, the constructor dispatch on
the four known type tags (so it succeeds exactly when the selected codec
does). -/
theorem object_read_checks_length_then_dispatches (fmt ds payload : List Nat)
    (hfmt : (32 : Nat) ∉ fmt) (hne : ds ≠ [])
    (hds : ∀ b ∈ ds, 48 ≤ b ∧ b ≤ 57) :
    (decimalVal ds ≠ payload.length →
        object_read (fmt ++ 32 :: (ds ++ 0 :: payload)) = .error .badLength)
    ∧ (decimalVal ds = payload.length →
        object_read (fmt ++ 32 :: (ds ++ 0 :: payload)) = objectDispatch fmt payload) :=
  object_read_envelope fmt ds payload hfmt hne hds

/-- Claim C7, witness: the envelope `blob 6\x00hello\n` reads back as the
blob `hello\n`, and the envelope `blob 7\x00hello\n`, whose declared length
is off by one, fails with the bad-length FormatError. -/
theorem object_read_checks_length_then_dispatches_witness :
    object_read (bstr "blob" ++ 32 :: (bstr "6" ++ 0 :: bstr "hello\n"))
      = .ok (.blob (bstr "hello\n"))
    ∧ object_read (bstr "blob" ++ 32 :: (bstr "7" ++ 0 :: bstr "hello\n"))
      = .error .badLength := by
  constructor
  · have h := object_read_checks_length_then_dispatches (bstr "blob") (bstr "6")
      (bstr "hello\n") (by decide) (by decide) (by decide)
    rw [h.2 (by decide)]
    decide
  · have h := object_read_checks_length_then_dispatches (bstr "blob") (bstr "7")
      (bstr "hello\n") (by decide) (by decide) (by decide)
    exact h.1 (by decide)

/-- Claim C8.  `object_write` with persistence enabled is idempotent: for
every digest and compression function, every object and every starting
store, writing the object a second time into the store produced by the
first write returns the same ObjectId and the very same store, because the
shard directory, the destination path and the stored bytes are all pure
functions of the serialized content. -/
theorem object_write_idempotent (digest compress : List Nat → List Nat) (obj : GitObj)
    (st : Store) :
    (object_write digest compress obj true st).bind
        (fun r => object_write digest compress obj true r.2)
      = object_write digest compress obj true st :=
  object_write_idem_helper digest compress obj st

/-- Claim C8, witness: idempotence at the identity digest and compression
functions, a blob object and the empty store. -/
theorem object_write_idempotent_witness :
    (object_write (fun l => l) (fun l => l) (.blob (bstr "hi")) true ⟨[], fun _ => none⟩).bind
        (fun r => object_write (fun l => l) (fun l => l) (.blob (bstr "hi")) true r.2)
      = object_write (fun l => l) (fun l => l) (.blob (bstr "hi")) true ⟨[], fun _ => none⟩ :=
  object_write_idempotent (fun l => l) (fun l => l) (.blob (bstr "hi")) ⟨[], fun _ => none⟩

/-- Claim C9.  For every reference whose chain of `ref: ` indirections is
finite and ends at a direct reference (`RefChain fs r d n`), `ref_resolve`
terminates — any fuel beyond the chain length suffices — and returns the
direct reference's contents with the trailing newline stripped. -/
theorem ref_resolve_terminates_on_finite_chain (fs : List Nat → Option (List Nat))
    (r d : List Nat) (n : Nat) (h : RefChain fs r d n) :
    ∀ fuel : Nat, n < fuel → ref_resolve fs fuel r = .ok d :=
  ref_resolve_chain fs r d n h

/-- Claim C9, witness: on `refFs`, `HEAD` is a symbolic reference that
resolves after one indirection to the digest held by `refs/heads/master`. -/
theorem ref_resolve_terminates_on_finite_chain_witness :
    ref_resolve refFs 2 (bstr "HEAD")
      = .ok (bstr "2f7f3dbb69ff2cb6b86d0783bcbbbd7245f16e9d") := by
  have hdir : RefChain refFs (bstr "refs/heads/master")
      ((bstr "2f7f3dbb69ff2cb6b86d0783bcbbbd7245f16e9d\n").dropLast) 0 :=
    RefChain.direct _ _ (by decide) (by decide)
  have hstep : RefChain refFs (bstr "HEAD")
      ((bstr "2f7f3dbb69ff2cb6b86d0783bcbbbd7245f16e9d\n").dropLast) 1 := by
    refine RefChain.step _ (bstr "ref: refs/heads/master\n") _ 0 (by decide) (by decide) ?_
    have e : (bstr "ref: refs/heads/master\n").dropLast.drop 5 = bstr "refs/heads/master" := by
      decide
    rw [e]
    exact hdir
  have e2 : (bstr "2f7f3dbb69ff2cb6b86d0783bcbbbd7245f16e9d\n").dropLast
      = bstr "2f7f3dbb69ff2cb6b86d0783bcbbbd7245f16e9d" := by decide
  rw [e2] at hstep
  exact ref_resolve_terminates_on_finite_chain refFs _ _ 1 hstep 2 (by decide)

/-- Claim C10.  `object_write` with the persist flag false returns exactly
the ObjectId a persisting write of the same object would return, and leaves
the store untouched: it equals the persisting write with the resulting
store replaced by the unchanged input store. -/
theorem object_write_no_persist_leaves_store (digest compress : List Nat → List Nat)
    (obj : GitObj) (st : Store) :
    object_write digest compress obj false st
      = (object_write digest compress obj true st).map (fun r => (r.1, st)) :=
  object_write_dry_helper digest compress obj st

/-- Claim C10, witness: the dry-run equation at the identity digest and
compression functions, a blob object and the empty store. -/
theorem object_write_no_persist_leaves_store_witness :
    object_write (fun l => l) (fun l => l) (.blob (bstr "hi")) false ⟨[], fun _ => none⟩
      = (object_write (fun l => l) (fun l => l) (.blob (bstr "hi")) true
          ⟨[], fun _ => none⟩).map (fun r => (r.1, ⟨[], fun _ => none⟩)) :=
  object_write_no_persist_leaves_store (fun l => l) (fun l => l) (.blob (bstr "hi"))
    ⟨[], fun _ => none⟩

end Pygit
